import Mathlib

/-!
Verification of `src/utils/compute_flops_mxm.py`, a command-line calculator
that prints the gigaFLOPS figure for a dense matrix multiplication given the
matrix size and the elapsed time in nanoseconds.

The Python floats are modelled as exact rationals (`ℚ`); Python's `round`
with two digits is modelled by round-half-to-even on rationals, its
documented rounding mode.  Python exceptions (`TypeError` on arithmetic with
`None`, `ZeroDivisionError` on float division by zero) are modelled by an
`Except` layer.  `argparse`'s `type=float` conversion is modelled by a parser
over strings that accepts the finite decimal literals of Python's `float()`
(optional sign, digits with optional fraction, optional exponent); on a value
that fails to convert, `argparse` exits with a usage error (exit status 2)
before the calculator runs.
-/

/-- Python exceptions that the script can raise. -/
inductive PyError where
  | typeError
  | zeroDivisionError
  deriving DecidableEq, Repr

/-- The namespace produced by `parseArguments`: each flag either carries a
float value or defaulted to `None` (`default=None` in the source). -/
structure Args where
  size : Option ℚ
  time : Option ℚ
  deriving DecidableEq, Repr

/-- Round-half-to-even to the nearest integer: the rounding mode of Python's
built-in `round`. -/
def roundHalfEven (x : ℚ) : ℤ :=
  if x - ⌊x⌋ < 1/2 then ⌊x⌋
  else if 1/2 < x - ⌊x⌋ then ⌊x⌋ + 1
  else if ⌊x⌋ % 2 = 0 then ⌊x⌋ else ⌊x⌋ + 1

/-- Python's `round(x, 2)`: round-half-to-even at the second decimal digit. -/
def pyRound2 (x : ℚ) : ℚ := (roundHalfEven (x * 100) : ℚ) / 100

/-- Decimal rendering of the hundredths-multiple `n / 100` in CPython's `str`
style: shortest digits, at least one digit after the point. -/
def pyFloatStrAux (n : ℤ) : String :=
  let sign := if n < 0 then "-" else ""
  let m := n.natAbs
  let ip := m / 100
  let fp := m % 100
  if fp = 0 then sign ++ toString ip ++ ".0"
  else if fp % 10 = 0 then sign ++ toString ip ++ "." ++ toString (fp / 10)
  else sign ++ toString ip ++ "." ++ (if fp < 10 then "0" else "") ++ toString fp

/-- Python's `str` rendering of a float that is an exact multiple of 1/100
(the only values `round(_, 2)` produces here): CPython prints the shortest
decimal that denotes the value, with at least one digit after the point
(`4.0`, `0.1`, `0.01`, `2147.48`, `-3.0`). -/
def pyFloatStr (q : ℚ) : String := pyFloatStrAux ⌊q * 100⌋

/-- The arithmetic of `computeFlops` (source lines 17-19), before rounding:
`numFloatOperationsPerKernel = 2 * matrixSize**3`, `timeScaleSec = 1E9`,
`gigaflops = (1E-9 * numFloatOperationsPerKernel) / (nanosecondsSolution / timeScaleSec)`. -/
def gigaflops (matrixSize nanosecondsSolution : ℚ) : ℚ :=
  let numFloatOperationsPerKernel := 2 * matrixSize ^ 3
  let timeScaleSec : ℚ := 1E9
  (1E-9 * numFloatOperationsPerKernel) / (nanosecondsSolution / timeScaleSec)

/-- The value `computeFlops` prints: `round(gigaflops, 2)`. -/
def computeFlopsVal (size time : ℚ) : ℚ := pyRound2 (gigaflops size time)

/-- `computeFlops(args)` (source lines 14-20).  With a missing flag the
arithmetic hits `None` and raises `TypeError`; with `time = 0` the float
division raises `ZeroDivisionError`; otherwise it prints one line
`"GigaGlops: " + str(round(gigaflops, 2))`. -/
def computeFlops (args : Args) : Except PyError String :=
  match args.size, args.time with
  | some matrixSize, some nanosecondsSolution =>
      if nanosecondsSolution / (1E9 : ℚ) = 0 then
        .error .zeroDivisionError
      else
        .ok ("GigaGlops: " ++ pyFloatStr (computeFlopsVal matrixSize nanosecondsSolution))
  | _, _ => .error .typeError

/-- Numeric value of a list of decimal digit characters. -/
def digitsVal (l : List Char) : ℕ :=
  l.foldl (fun a c => 10 * a + (c.toNat - '0'.toNat)) 0

/-- Model of Python's `float(s)` on finite decimal literals, the conversion
`argparse` applies for `type=float`: optional sign, then a mantissa with at
least one digit (`12`, `12.`, `.5`, `12.5`), then an optional exponent
(`e`/`E`, optional sign, at least one digit).  Anything else fails. -/
def pyParseFloat (s : String) : Option ℚ :=
  let cs := s.toList
  let (sgn, cs) : ℚ × List Char :=
    match cs with
    | '-' :: rest => (-1, rest)
    | '+' :: rest => (1, rest)
    | _ => (1, cs)
  let intPart := cs.takeWhile Char.isDigit
  let cs := cs.dropWhile Char.isDigit
  let (fracPart, cs) : List Char × List Char :=
    match cs with
    | '.' :: rest => (rest.takeWhile Char.isDigit, rest.dropWhile Char.isDigit)
    | _ => ([], cs)
  if intPart.isEmpty ∧ fracPart.isEmpty then none
  else
    match cs with
    | [] =>
        some (sgn * ((digitsVal intPart : ℚ) + digitsVal fracPart / 10 ^ fracPart.length))
    | 'e' :: rest | 'E' :: rest =>
        let (esgn, rest) : ℤ × List Char :=
          match rest with
          | '-' :: r => (-1, r)
          | '+' :: r => (1, r)
          | _ => (1, rest)
        let expDigits := rest.takeWhile Char.isDigit
        let rest := rest.dropWhile Char.isDigit
        if expDigits.isEmpty ∨ ¬rest.isEmpty then none
        else
          some (sgn * ((digitsVal intPart : ℚ) + digitsVal fracPart / 10 ^ fracPart.length)
            * 10 ^ (esgn * (digitsVal expDigits : ℤ)))
    | _ => none

/-- One invocation: the raw string given to `--size` and to `--time`, if any. -/
structure Invocation where
  sizeArg : Option String
  timeArg : Option String
  deriving DecidableEq, Repr

/-- Conversion of one provided flag value by `argparse` with `type=float`:
an absent flag keeps its `default=None`; a present value is converted with
`float`, and a conversion failure makes `argparse` exit with status 2. -/
def convertFlag : Option String → Except ℕ (Option ℚ)
  | none => Except.ok none
  | some raw =>
      match pyParseFloat raw with
      | none => Except.error 2
      | some v => Except.ok (some v)

/-- `parseArguments()` (source lines 7-12): each provided raw value is
converted with `float`; a value that fails to convert makes `argparse` exit
with status 2 (its usage error) before returning; an absent flag defaults to
`None`. -/
def parseArguments (inv : Invocation) : Except ℕ Args :=
  match convertFlag inv.sizeArg with
  | Except.error c => Except.error c
  | Except.ok size =>
      match convertFlag inv.timeArg with
      | Except.error c => Except.error c
      | Except.ok time => Except.ok ⟨size, time⟩

/-- Observable outcome of one run of the program. -/
inductive ProgResult where
  | printed (line : String)
  | usageExit (code : ℕ)
  | raised (e : PyError)
  deriving DecidableEq, Repr

/-- The `__main__` block (source lines 22-24): parse, then compute and print;
an `argparse` failure exits before the calculator runs. -/
def runMain (inv : Invocation) : ProgResult :=
  match parseArguments inv with
  | .error code => .usageExit code
  | .ok args =>
      match computeFlops args with
      | .error e => .raised e
      | .ok line => .printed line

/-- The simplified form of the formula stated in the spec:
`gigaflops = floatOps / timeNs` with `floatOps = 2 * size^3`. -/
def gigaflopsSimplified (size time : ℚ) : ℚ := (2 * size ^ 3) / time

/-! ### Helper lemmas -/

theorem roundHalfEven_nonneg {x : ℚ} (hx : 0 ≤ x) : 0 ≤ roundHalfEven x := by
  have hf : (0 : ℤ) ≤ ⌊x⌋ := Int.floor_nonneg.mpr hx
  unfold roundHalfEven
  split_ifs <;> omega

theorem abs_roundHalfEven_sub (x : ℚ) : |(roundHalfEven x : ℚ) - x| ≤ 1/2 := by
  have h0 : (⌊x⌋ : ℚ) ≤ x := Int.floor_le x
  have h1 : x < ⌊x⌋ + 1 := Int.lt_floor_add_one x
  unfold roundHalfEven
  split_ifs with ha hb hc <;> rw [abs_le] <;> push_cast <;> constructor <;> linarith

theorem pyRound2_nonneg {x : ℚ} (hx : 0 ≤ x) : 0 ≤ pyRound2 x := by
  unfold pyRound2
  have h : (0 : ℤ) ≤ roundHalfEven (x * 100) := roundHalfEven_nonneg (by positivity)
  positivity

theorem abs_pyRound2_sub (x : ℚ) : |pyRound2 x - x| ≤ 1/200 := by
  have h := abs_roundHalfEven_sub (x * 100)
  have hrw : pyRound2 x - x = ((roundHalfEven (x * 100) : ℚ) - x * 100) / 100 := by
    unfold pyRound2; ring
  rw [hrw, abs_div, abs_of_pos (by norm_num : (0:ℚ) < 100)]
  linarith

theorem gigaflops_eq (size time : ℚ) (ht : time ≠ 0) :
    gigaflops size time = 2 * size ^ 3 / time := by
  have h9 : (1E-9 : ℚ) = 1 / 1E9 := by norm_num
  have h9' : (1E9 : ℚ) ≠ 0 := by norm_num
  simp only [gigaflops, h9]
  field_simp

theorem floor_eq_of_bounds {q : ℚ} {n : ℤ} (h1 : (n : ℚ) ≤ q) (h2 : q < n + 1) :
    ⌊q⌋ = n := Int.floor_eq_iff.mpr ⟨h1, h2⟩

theorem roundHalfEven_of_fract_lt {x : ℚ} {n : ℤ} (hn : ⌊x⌋ = n)
    (h : x - n < 1/2) : roundHalfEven x = n := by
  unfold roundHalfEven
  rw [hn, if_pos h]

theorem roundHalfEven_of_fract_gt {x : ℚ} {n : ℤ} (hn : ⌊x⌋ = n)
    (h : 1/2 < x - n) : roundHalfEven x = n + 1 := by
  unfold roundHalfEven
  rw [hn, if_neg (by linarith), if_pos h]

theorem convertFlag_error_eq_two {o : Option String} {c : ℕ}
    (h : convertFlag o = Except.error c) : c = 2 := by
  match o with
  | none => simp [convertFlag] at h
  | some raw =>
      simp only [convertFlag] at h
      cases hp : pyParseFloat raw <;> rw [hp] at h <;> simp_all

/-! ### Claims -/

/-- C1: for every positive `size` and positive `timeNs`, `computeFlops`
computes a (finite, by construction in `ℚ`) non-negative value equal to
`round(2 * size^3 / timeNs, 2)`, the simplified form of the formula. -/
theorem C1_rounded_simplified_formula (size time : ℚ) (hs : 0 < size) (ht : 0 < time) :
    computeFlopsVal size time = pyRound2 (2 * size ^ 3 / time) ∧
    0 ≤ computeFlopsVal size time := by
  have hg : gigaflops size time = 2 * size ^ 3 / time := gigaflops_eq size time (ne_of_gt ht)
  refine ⟨by simp only [computeFlopsVal, hg], ?_⟩
  simp only [computeFlopsVal, hg]
  exact pyRound2_nonneg (by positivity)

/-- Witness for C1 at `size = 1`, `time = 2`. -/
theorem C1_witness :
    (0 : ℚ) < 1 ∧ (0 : ℚ) < 2 ∧
    (computeFlopsVal 1 2 = pyRound2 (2 * 1 ^ 3 / 2) ∧ 0 ≤ computeFlopsVal 1 2) :=
  ⟨by norm_num, by norm_num, C1_rounded_simplified_formula 1 2 (by norm_num) (by norm_num)⟩

/-- C2 counterexample: at `size = 100`, `time = 500000` the program prints
`GigaGlops: 4.0`, not the two-decimal rendering `GigaGlops: 4.00` the claim
requires. -/
theorem C2_counterexample :
    computeFlops ⟨some 100, some 500000⟩ = Except.ok "GigaGlops: 4.0" ∧
    "GigaGlops: 4.0" ≠ "GigaGlops: 4.00" := by
  constructor
  · have hg : gigaflops 100 500000 = 4 := by norm_num [gigaflops]
    have hf : ⌊(4 : ℚ) * 100⌋ = (400 : ℤ) := floor_eq_of_bounds (by norm_num) (by norm_num)
    have hval : computeFlopsVal 100 500000 = 4 := by
      simp only [computeFlopsVal, pyRound2, hg]
      rw [roundHalfEven_of_fract_lt hf (by push_cast; norm_num)]
      norm_num
    simp only [computeFlops]
    rw [if_neg (by norm_num : ¬((500000 : ℚ) / 1E9 = 0)), hval]
    rw [pyFloatStr, hf]
    rfl
  · decide

/-- C2 amended: for provided inputs with `timeNs ≠ 0`, the printed line is
`"GigaGlops: "` followed by the rounded value in CPython's default float
rendering (shortest digits, at least one decimal digit — e.g. `4.0`, not
`4.00`). -/
theorem C2_output_line (size time : ℚ) (ht : time ≠ 0) :
    computeFlops ⟨some size, some time⟩ =
      Except.ok ("GigaGlops: " ++ pyFloatStr (computeFlopsVal size time)) := by
  simp only [computeFlops]
  rw [if_neg]
  intro h
  rcases div_eq_zero_iff.mp h with h | h
  · exact ht h
  · norm_num at h

/-- Witness for C2 amended at `size = 100`, `time = 500000`. -/
theorem C2_output_line_witness :
    (500000 : ℚ) ≠ 0 ∧
    computeFlops ⟨some 100, some 500000⟩ =
      Except.ok ("GigaGlops: " ++ pyFloatStr (computeFlopsVal 100 500000)) :=
  ⟨by norm_num, C2_output_line 100 500000 (by norm_num)⟩

/-- C3 counterexample: at `size = 1`, `time = 0` the float division raises
`ZeroDivisionError`; nothing is printed, contradicting the claim that the
arithmetic yields an infinity that is then printed. -/
theorem C3_counterexample :
    computeFlops ⟨some 1, some 0⟩ = Except.error PyError.zeroDivisionError := by
  simp only [computeFlops]
  rw [if_pos (by norm_num)]

/-- C3 amended: for every finite `size`, when `timeNs = 0` the division
raises `ZeroDivisionError` (Python float division by zero is an error, not
an infinity) and no output line is produced. -/
theorem C3_zero_time_raises (size : ℚ) :
    computeFlops ⟨some size, some 0⟩ = Except.error PyError.zeroDivisionError := by
  simp only [computeFlops]
  rw [if_pos (by norm_num)]

/-- C4: whenever `--size` or `--time` was omitted, the parsed namespace holds
`None` there, the arithmetic of `computeFlops` is attempted on it and raises
`TypeError`; no `GigaGlops:` line is produced. -/
theorem C4_missing_value_type_error (args : Args)
    (h : args.size = none ∨ args.time = none) :
    computeFlops args = Except.error PyError.typeError := by
  obtain ⟨s, t⟩ := args
  rcases h with h | h
  · simp only at h
    subst h
    rfl
  · simp only at h
    subst h
    cases s <;> rfl

/-- Witness for C4 with `--size` omitted and `--time 5`. -/
theorem C4_witness :
    ((Args.mk none (some 5)).size = none ∨ (Args.mk none (some 5)).time = none) ∧
    computeFlops ⟨none, some 5⟩ = Except.error PyError.typeError :=
  ⟨Or.inl rfl, C4_missing_value_type_error ⟨none, some 5⟩ (Or.inl rfl)⟩

/-- C5: an invocation in which a provided `--size` or `--time` value fails
`float` conversion makes `argparse` exit with its usage status 2 before the
calculator runs; no `GigaGlops:` line is produced. -/
theorem C5_unparsable_value_usage_exit (inv : Invocation)
    (h : (∃ raw, inv.sizeArg = some raw ∧ pyParseFloat raw = none) ∨
         (∃ raw, inv.timeArg = some raw ∧ pyParseFloat raw = none)) :
    runMain inv = ProgResult.usageExit 2 := by
  obtain ⟨s, t⟩ := inv
  rcases h with ⟨raw, hr, hp⟩ | ⟨raw, hr, hp⟩
  · simp only at hr
    subst hr
    simp only [runMain, parseArguments, convertFlag, hp]
  · simp only at hr
    subst hr
    cases hcs : convertFlag s with
    | error c =>
        have := convertFlag_error_eq_two hcs
        subst this
        simp only [runMain, parseArguments, hcs]
    | ok sz =>
        simp only [runMain, parseArguments, hcs]
        simp only [convertFlag, hp]

/-- Witness for C5 at the invocation `--size 1 --time abc`. -/
theorem C5_witness :
    ((∃ raw, (Invocation.mk (some "1") (some "abc")).sizeArg = some raw ∧
        pyParseFloat raw = none) ∨
     (∃ raw, (Invocation.mk (some "1") (some "abc")).timeArg = some raw ∧
        pyParseFloat raw = none)) ∧
    runMain ⟨some "1", some "abc"⟩ = ProgResult.usageExit 2 :=
  ⟨Or.inr ⟨"abc", rfl, by decide⟩,
   C5_unparsable_value_usage_exit ⟨some "1", some "abc"⟩ (Or.inr ⟨"abc", rfl, by decide⟩)⟩

/-- C6: for every `size` and non-zero `timeNs`, the implemented expression
`(floatOps * 1e-9) / (timeNs / 1e9)` with `floatOps = 2 * size^3` equals the
simplified form `floatOps / timeNs`. -/
theorem C6_formula_equiv (size time : ℚ) (ht : time ≠ 0) :
    gigaflops size time = gigaflopsSimplified size time := by
  rw [gigaflops_eq size time ht]
  rfl

/-- Witness for C6 at `size = 2`, `time = 3`. -/
theorem C6_witness : (3 : ℚ) ≠ 0 ∧ gigaflops 2 3 = gigaflopsSimplified 2 3 :=
  ⟨by norm_num, C6_formula_equiv 2 3 (by norm_num)⟩

/-- C7: scaling in time.  Multiplying `timeNs` by a positive `k` divides the
reported figure by `k`, up to the tolerance introduced by the 2-decimal
rounding: each of the two roundings moves the value by at most `1/200`. -/
theorem C7_time_scaling (size time k : ℚ) (ht : time ≠ 0) (hk : 0 < k) :
    |computeFlopsVal size (k * time) - computeFlopsVal size time / k| ≤
      1/200 * (1 + 1/k) := by
  have hk0 : k ≠ 0 := ne_of_gt hk
  have hy : gigaflops size (k * time) = gigaflops size time / k := by
    rw [gigaflops_eq size time ht, gigaflops_eq size (k * time) (mul_ne_zero hk0 ht),
      div_div, mul_comm k time]
  have e1 : computeFlopsVal size (k * time) = pyRound2 (gigaflops size time / k) := by
    simp only [computeFlopsVal, hy]
  have e2 : computeFlopsVal size time = pyRound2 (gigaflops size time) := rfl
  set y := gigaflops size time with hdef
  have a1 := abs_pyRound2_sub (y / k)
  have a2 := abs_pyRound2_sub y
  rw [e1, e2]
  have key : pyRound2 (y / k) - pyRound2 y / k =
      (pyRound2 (y / k) - y / k) + (y - pyRound2 y) / k := by
    field_simp
  rw [key]
  calc |(pyRound2 (y / k) - y / k) + (y - pyRound2 y) / k|
      ≤ |pyRound2 (y / k) - y / k| + |(y - pyRound2 y) / k| := abs_add _ _
    _ ≤ 1/200 + (1/200) / k := by
        refine add_le_add a1 ?_
        rw [abs_div, abs_of_pos hk]
        refine (div_le_div_iff_of_pos_right hk).mpr ?_
        rw [abs_sub_comm]
        exact a2
    _ = 1/200 * (1 + 1/k) := by
        field_simp

/-- Witness for C7 at `size = 1`, `time = 1`, `k = 2`. -/
theorem C7_witness :
    (1 : ℚ) ≠ 0 ∧ (0 : ℚ) < 2 ∧
    |computeFlopsVal 1 (2 * 1) - computeFlopsVal 1 1 / 2| ≤ 1/200 * (1 + 1/2) :=
  ⟨by norm_num, by norm_num, C7_time_scaling 1 1 2 (by norm_num) (by norm_num)⟩

/-- C8: cubic scaling in size.  Multiplying `size` by a positive `k`
multiplies the reported figure by `k^3`, up to the tolerance introduced by
the 2-decimal rounding. -/
theorem C8_size_scaling (size time k : ℚ) (ht : time ≠ 0) (hk : 0 < k) :
    |computeFlopsVal (k * size) time - k ^ 3 * computeFlopsVal size time| ≤
      1/200 * (1 + k ^ 3) := by
  have hy : gigaflops (k * size) time = k ^ 3 * gigaflops size time := by
    simp only [gigaflops]
    ring
  have e1 : computeFlopsVal (k * size) time = pyRound2 (k ^ 3 * gigaflops size time) := by
    simp only [computeFlopsVal, hy]
  have e2 : computeFlopsVal size time = pyRound2 (gigaflops size time) := rfl
  set y := gigaflops size time with hdef
  have a1 := abs_pyRound2_sub (k ^ 3 * y)
  have a2 := abs_pyRound2_sub y
  have hk3 : (0 : ℚ) < k ^ 3 := by positivity
  rw [e1, e2]
  have key : pyRound2 (k ^ 3 * y) - k ^ 3 * pyRound2 y =
      (pyRound2 (k ^ 3 * y) - k ^ 3 * y) + k ^ 3 * (y - pyRound2 y) := by
    ring
  rw [key]
  calc |(pyRound2 (k ^ 3 * y) - k ^ 3 * y) + k ^ 3 * (y - pyRound2 y)|
      ≤ |pyRound2 (k ^ 3 * y) - k ^ 3 * y| + |k ^ 3 * (y - pyRound2 y)| := abs_add _ _
    _ ≤ 1/200 + k ^ 3 * (1/200) := by
        refine add_le_add a1 ?_
        rw [abs_mul, abs_of_pos hk3]
        refine mul_le_mul_of_nonneg_left ?_ (le_of_lt hk3)
        rw [abs_sub_comm]
        exact a2
    _ = 1/200 * (1 + k ^ 3) := by ring

/-- Witness for C8 at `size = 1`, `time = 1`, `k = 2`. -/
theorem C8_witness :
    (1 : ℚ) ≠ 0 ∧ (0 : ℚ) < 2 ∧
    |computeFlopsVal (2 * 1) 1 - (2 : ℚ) ^ 3 * computeFlopsVal 1 1| ≤ 1/200 * (1 + (2 : ℚ) ^ 3) :=
  ⟨by norm_num, by norm_num, C8_size_scaling 1 1 2 (by norm_num) (by norm_num)⟩

/-- C9: concrete scenario `size = 1024`, `time = 1000000`: the operation
count is `2 * 1024^3 = 2147483648`, the exact gigaflops figure is
`2147.483648`, and the printed line is exactly `GigaGlops: 2147.48`. -/
theorem C9_concrete_scenario :
    2 * (1024 : ℚ) ^ 3 = 2147483648 ∧
    gigaflops 1024 1000000 = 2147.483648 ∧
    computeFlops ⟨some 1024, some 1000000⟩ = Except.ok "GigaGlops: 2147.48" := by
  refine ⟨by norm_num, by norm_num [gigaflops], ?_⟩
  have hg : gigaflops 1024 1000000 = 2147.483648 := by norm_num [gigaflops]
  have hf : ⌊(2147.483648 : ℚ) * 100⌋ = (214748 : ℤ) :=
    floor_eq_of_bounds (by norm_num) (by norm_num)
  have hval : computeFlopsVal 1024 1000000 = 2147.48 := by
    simp only [computeFlopsVal, pyRound2, hg]
    rw [roundHalfEven_of_fract_lt hf (by push_cast; norm_num)]
    norm_num
  have hf2 : ⌊(2147.48 : ℚ) * 100⌋ = (214748 : ℤ) :=
    floor_eq_of_bounds (by norm_num) (by norm_num)
  simp only [computeFlops]
  rw [if_neg (by norm_num : ¬((1000000 : ℚ) / 1E9 = 0)), hval]
  rw [pyFloatStr, hf2]
  rfl

/-- C10: the display rounding is round-half-to-even.  Whenever the exact
gigaflops value lies exactly halfway between two consecutive hundredths
(`gigaflops * 100 = n + 1/2`), the rounded value is the neighbour whose
final digit is even. -/
theorem C10_round_half_to_even (size time : ℚ) (n : ℤ)
    (h : gigaflops size time * 100 = n + 1/2) :
    computeFlopsVal size time = ((if n % 2 = 0 then n else n + 1 : ℤ) : ℚ) / 100 ∧
    (if n % 2 = 0 then n else n + 1) % 2 = 0 := by
  have hfl : ⌊gigaflops size time * 100⌋ = n := by
    rw [h, Int.floor_int_add,
      show ⌊(1/2 : ℚ)⌋ = 0 from floor_eq_of_bounds (by norm_num) (by norm_num)]
    omega
  have hval : roundHalfEven (gigaflops size time * 100) =
      if n % 2 = 0 then n else n + 1 := by
    unfold roundHalfEven
    rw [hfl, h]
    rw [if_neg (by linarith), if_neg (by linarith)]
  refine ⟨by simp only [computeFlopsVal, pyRound2, hval], ?_⟩
  split_ifs with h2
  · exact h2
  · omega

/-- Witness for C10 at `size = 1`, `time = 16`: the exact value is
`0.125`, exactly halfway, and the program prints `GigaGlops: 0.12`,
not `GigaGlops: 0.13`. -/
theorem C10_witness :
    gigaflops 1 16 * 100 = ((12 : ℤ) : ℚ) + 1/2 ∧
    (computeFlopsVal 1 16 = ((if (12 : ℤ) % 2 = 0 then (12 : ℤ) else 12 + 1 : ℤ) : ℚ) / 100 ∧
      (if (12 : ℤ) % 2 = 0 then (12 : ℤ) else 12 + 1) % 2 = 0) ∧
    computeFlops ⟨some 1, some 16⟩ = Except.ok "GigaGlops: 0.12" ∧
    "GigaGlops: 0.12" ≠ "GigaGlops: 0.13" := by
  have h : gigaflops 1 16 * 100 = ((12 : ℤ) : ℚ) + 1/2 := by norm_num [gigaflops]
  have hmain := C10_round_half_to_even 1 16 12 h
  refine ⟨h, hmain, ?_, by decide⟩
  have hval : computeFlopsVal 1 16 = ((12 : ℤ) : ℚ) / 100 := by
    rw [hmain.1, if_pos (by decide)]
  have hf : ⌊((12 : ℤ) : ℚ) / 100 * 100⌋ = (12 : ℤ) :=
    floor_eq_of_bounds (by norm_num) (by norm_num)
  simp only [computeFlops]
  rw [if_neg (by norm_num : ¬((16 : ℚ) / 1E9 = 0)), hval]
  rw [pyFloatStr, hf]
  rfl
